import Mathlib

/-!
Verification of the Veridian Research Platform query-processing backend
(`ml_query_processor.py` and `enhanced_pubmed_search.py`).

Strings are modelled as `List Char`; Python floats are modelled as exact
rationals (every numeric literal in the source is an exact decimal and all
comparisons in the source are robust); the injectable clock is a `Now`
record; dictionaries with a fixed key set become structures, and the two
static lookup dictionaries become association lists in insertion order
(Python dicts iterate in insertion order).  Character-level operations
(`str.lower`, `\w`, `\s`) are modelled on the ASCII range, which is the
range the source's tables and patterns live in.
-/

namespace Veridian

/-- Python `\s` on the ASCII range: space, tab, newline, carriage return,
vertical tab, form feed. -/
def isPySpace (c : Char) : Bool :=
  c == ' ' || c == '\t' || c == '\n' || c == '\r' || c == '\x0b' || c == '\x0c'

/-- Python `\w` on the ASCII range: alphanumeric or underscore. -/
def isWordChar (c : Char) : Bool :=
  c.isAlphanum || c == '_'

/-- Python `str.lower()` (ASCII range), applied characterwise. -/
def lowerStr (s : List Char) : List Char :=
  s.map Char.toLower

/-- Python's substring test `needle in hay`. -/
def inStr (needle hay : List Char) : Bool :=
  (List.range (hay.length + 1)).any fun i => needle.isPrefixOf (hay.drop i)

/-- True when position `i` of `text` is past the end or holds a non-word
character: the condition under which a regex `\b` holds next to a word
character. -/
def charNonWordAt (text : List Char) (i : Nat) : Bool :=
  match text[i]? with
  | some c => !(isWordChar c)
  | none => true

/-- Case-insensitive match of the literal alternative `pat` at position `i`
of `text`, with `\b` word boundaries on both sides (every alternative in the
source's patterns starts and ends with a word character). -/
def wordMatchAt (text pat : List Char) (i : Nat) : Bool :=
  decide (lowerStr ((text.drop i).take pat.length) = lowerStr pat)
    && (i == 0 || charNonWordAt text (i - 1))
    && charNonWordAt text (i + pat.length)

/-- Python `re.search(r'\b(alt1|alt2|...)\b', text, re.IGNORECASE)` as a
Boolean: some alternative matches at some position. -/
def wordSearch (text : List Char) (alts : List (List Char)) : Bool :=
  (List.range (text.length + 1)).any fun i => alts.any fun p => wordMatchAt text p i

/-- First alternative matching at position `i`, returning the matched slice
of `text` (regex alternation tries alternatives left to right). -/
def tryAlts (text : List Char) (alts : List (List Char)) (i : Nat) : Option (List Char) :=
  alts.findSome? fun p =>
    if wordMatchAt text p i then some ((text.drop i).take p.length) else none

/-- Scanning loop of `re.findall`: left to right, non-overlapping matches,
resuming right after each match.  `fuel` bounds the recursion; `findall`
supplies enough for the whole text. -/
def findallAux (text : List Char) (alts : List (List Char)) : Nat → Nat → List (List Char)
  | _, 0 => []
  | i, fuel + 1 =>
    match tryAlts text alts i with
    | some m => m :: findallAux text alts (i + m.length) (fuel)
    | none => findallAux text alts (i + 1) (fuel)

/-- Python `re.findall(r'\b(...)\b', text, re.IGNORECASE)`. -/
def findall (text : List Char) (alts : List (List Char)) : List (List Char) :=
  findallAux text alts 0 (text.length + 1)

/-- Deduplication keeping the first occurrence.  The source builds
`list(set(...))`, whose order CPython leaves unspecified; the model fixes
first-occurrence order (the claims that touch these values only ever see
singleton lists, where every order agrees). -/
def dedupFirstAux (seen : List (List Char)) : List (List Char) → List (List Char)
  | [] => []
  | x :: xs => if x ∈ seen then dedupFirstAux seen xs else x :: dedupFirstAux (x :: seen) xs

/-- Deduplication keeping the first occurrence (see `dedupFirstAux`). -/
def dedupFirst (l : List (List Char)) : List (List Char) :=
  dedupFirstAux [] l

/-- Python `str.split()`: split on whitespace runs, dropping empty pieces.
`acc` holds the (reversed) current word. -/
def splitWordsAux : List Char → List Char → List (List Char)
  | [], acc => if acc.isEmpty then [] else [acc.reverse]
  | c :: cs, acc =>
    if isPySpace c then
      if acc.isEmpty then splitWordsAux cs [] else acc.reverse :: splitWordsAux cs []
    else splitWordsAux cs (c :: acc)

/-- Python `str.split()` with no arguments. -/
def splitWords (s : List Char) : List (List Char) :=
  splitWordsAux s []

/-- Python `str.strip()`: drop leading and trailing whitespace. -/
def pyStrip (s : List Char) : List Char :=
  List.rdropWhile isPySpace (List.dropWhile isPySpace s)

/-- Python `re.sub(r'[^\w\s-]', ' ', s)`: replace every character that is
not a word character, whitespace, or hyphen by a space. -/
def replaceNonWord (s : List Char) : List Char :=
  s.map fun c => if isWordChar c || isPySpace c || c == '-' then c else ' '

/-- Python `re.sub(r'\s+', ' ', s)`: collapse every whitespace run to a
single space. -/
def collapseWS : List Char → List Char
  | [] => []
  | [c] => if isPySpace c then [' '] else [c]
  | c1 :: c2 :: rest =>
    if isPySpace c1 then
      if isPySpace c2 then collapseWS (c2 :: rest)
      else ' ' :: collapseWS (c2 :: rest)
    else c1 :: collapseWS (c2 :: rest)

/-- `MLQueryProcessor._normalize_query`:
`re.sub(r'\s+', ' ', re.sub(r'[^\w\s-]', ' ', query.lower().strip())).strip()`. -/
def normalizeQuery (query : List Char) : List Char :=
  pyStrip (collapseWS (replaceNonWord (pyStrip (lowerStr query))))

/-- Python f-string `f'"{s}"{tag}'`: wrap `s` in double quotes and append a
field tag such as `[MeSH Terms]`. -/
def quoteTag (s tag : List Char) : List Char :=
  '"' :: (s ++ '"' :: tag)

/-- Python slice `l[-n:]`: the last `n` elements (the whole list when it is
shorter). -/
def lastN (n : Nat) (l : List α) : List α :=
  l.drop (l.length - n)

/-- `MLQueryProcessor._initialize_mesh_terms`, in insertion order. -/
def meshTerms : List (List Char × List Char) :=
  [("heart attack".toList, "Myocardial Infarction".toList),
   ("heart disease".toList, "Heart Diseases".toList),
   ("high blood pressure".toList, "Hypertension".toList),
   ("stroke".toList, "Stroke".toList),
   ("cardiac".toList, "Heart Diseases".toList),
   ("diabetes".toList, "Diabetes Mellitus".toList),
   ("sugar diabetes".toList, "Diabetes Mellitus".toList),
   ("thyroid".toList, "Thyroid Diseases".toList),
   ("asthma".toList, "Asthma".toList),
   ("lung disease".toList, "Lung Diseases".toList),
   ("pneumonia".toList, "Pneumonia".toList),
   ("copd".toList, "Pulmonary Disease, Chronic Obstructive".toList),
   ("cancer".toList, "Neoplasms".toList),
   ("tumor".toList, "Neoplasms".toList),
   ("breast cancer".toList, "Breast Neoplasms".toList),
   ("lung cancer".toList, "Lung Neoplasms".toList),
   ("skin cancer".toList, "Skin Neoplasms".toList),
   ("alzheimer".toList, "Alzheimer Disease".toList),
   ("dementia".toList, "Dementia".toList),
   ("parkinson".toList, "Parkinson Disease".toList),
   ("epilepsy".toList, "Epilepsy".toList),
   ("seizure".toList, "Seizures".toList),
   ("depression".toList, "Depression".toList),
   ("anxiety".toList, "Anxiety Disorders".toList),
   ("ptsd".toList, "Stress Disorders, Post-Traumatic".toList),
   ("bipolar".toList, "Bipolar Disorder".toList),
   ("covid".toList, "COVID-19".toList),
   ("coronavirus".toList, "COVID-19".toList),
   ("hiv".toList, "HIV Infections".toList),
   ("aids".toList, "Acquired Immunodeficiency Syndrome".toList),
   ("tuberculosis".toList, "Tuberculosis".toList),
   ("malaria".toList, "Malaria".toList),
   ("arthritis".toList, "Arthritis".toList),
   ("osteoporosis".toList, "Osteoporosis".toList),
   ("joint pain".toList, "Arthralgia".toList),
   ("machine learning".toList, "Machine Learning".toList),
   ("artificial intelligence".toList, "Artificial Intelligence".toList),
   ("deep learning".toList, "Deep Learning".toList),
   ("neural network".toList, "Neural Networks, Computer".toList),
   ("gene therapy".toList, "Genetic Therapy".toList),
   ("immunotherapy".toList, "Immunotherapy".toList),
   ("telemedicine".toList, "Telemedicine".toList)]

/-- `MLQueryProcessor._initialize_medical_abbreviations`, in insertion
order. -/
def medicalAbbreviations : List (List Char × List Char) :=
  [("MI".toList, "Myocardial Infarction".toList),
   ("CVD".toList, "Cardiovascular Diseases".toList),
   ("CHF".toList, "Heart Failure".toList),
   ("COPD".toList, "Pulmonary Disease, Chronic Obstructive".toList),
   ("DM".toList, "Diabetes Mellitus".toList),
   ("HTN".toList, "Hypertension".toList),
   ("CAD".toList, "Coronary Artery Disease".toList),
   ("CKD".toList, "Renal Insufficiency, Chronic".toList),
   ("PTSD".toList, "Stress Disorders, Post-Traumatic".toList),
   ("IBD".toList, "Inflammatory Bowel Diseases".toList),
   ("RA".toList, "Arthritis, Rheumatoid".toList),
   ("MS".toList, "Multiple Sclerosis".toList),
   ("ALS".toList, "Amyotrophic Lateral Sclerosis".toList),
   ("AD".toList, "Alzheimer Disease".toList),
   ("PD".toList, "Parkinson Disease".toList),
   ("AIDS".toList, "Acquired Immunodeficiency Syndrome".toList),
   ("HIV".toList, "HIV Infections".toList),
   ("TB".toList, "Tuberculosis".toList),
   ("UTI".toList, "Urinary Tract Infections".toList),
   ("ICU".toList, "Intensive Care Units".toList),
   ("ER".toList, "Emergency Service, Hospital".toList)]

/-- `MLQueryProcessor._initialize_synonym_map`, in insertion order. -/
def synonymMap : List (List Char × List (List Char)) :=
  [("treatment".toList, ["therapy".toList, "intervention".toList, "management".toList]),
   ("prevention".toList, ["prophylaxis".toList, "preventive".toList, "preventative".toList]),
   ("diagnosis".toList, ["diagnostic".toList, "screening".toList, "detection".toList]),
   ("symptoms".toList, ["signs".toList, "manifestations".toList, "clinical features".toList]),
   ("causes".toList, ["etiology".toList, "pathogenesis".toList, "risk factors".toList]),
   ("elderly".toList, ["aged".toList, "geriatric".toList, "older adults".toList]),
   ("children".toList, ["pediatric".toList, "kids".toList, "youth".toList]),
   ("women".toList, ["female".toList, "maternal".toList]),
   ("men".toList, ["male".toList, "paternal".toList]),
   ("medication".toList, ["drug".toList, "pharmaceutical".toList, "medicine".toList]),
   ("surgery".toList, ["surgical".toList, "operation".toList, "procedure".toList]),
   ("study".toList, ["research".toList, "investigation".toList, "analysis".toList]),
   ("effectiveness".toList, ["efficacy".toList, "outcome".toList, "results".toList])]

/-- Demographic patterns of `_extract_medical_entities`: pattern name with
the regex alternatives. -/
def demographicPatterns : List (List Char × List (List Char)) :=
  [("age".toList,
    ["infant".toList, "child".toList, "adolescent".toList, "adult".toList,
     "elderly".toList, "aged".toList, "geriatric".toList]),
   ("gender".toList,
    ["male".toList, "female".toList, "men".toList, "women".toList,
     "man".toList, "woman".toList]),
   ("population".toList,
    ["pregnant".toList, "pregnancy".toList, "postmenopausal".toList, "pediatric".toList])]

/-- Study-type patterns of `_extract_medical_entities`. -/
def studyTypePatterns : List (List Char × List (List Char)) :=
  [("randomized controlled trial".toList,
    ["rct".toList, "randomized controlled trial".toList, "clinical trial".toList]),
   ("meta-analysis".toList,
    ["meta-analysis".toList, "systematic review".toList]),
   ("case study".toList,
    ["case study".toList, "case report".toList]),
   ("cohort study".toList,
    ["cohort study".toList, "longitudinal".toList])]

/-- Intent patterns of `_classify_intent`. -/
def intentPatterns : List (List Char × List (List Char)) :=
  [("treatment".toList,
    ["treat".toList, "therapy".toList, "intervention".toList, "cure".toList,
     "medication".toList, "drug".toList]),
   ("diagnosis".toList,
    ["diagnos".toList, "detect".toList, "screen".toList, "test".toList, "identify".toList]),
   ("prevention".toList,
    ["prevent".toList, "avoid".toList, "prophylax".toList, "vaccination".toList,
     "immuniz".toList]),
   ("symptoms".toList,
    ["symptom".toList, "sign".toList, "manifest".toList, "present".toList]),
   ("causes".toList,
    ["cause".toList, "etiology".toList, "pathogen".toList, "risk factor".toList]),
   ("prognosis".toList,
    ["prognosis".toList, "outcome".toList, "survival".toList, "mortality".toList]),
   ("epidemiology".toList,
    ["prevalence".toList, "incidence".toList, "epidemiol".toList, "population".toList]),
   ("mechanism".toList,
    ["mechanism".toList, "pathway".toList, "molecular".toList, "cellular".toList])]

/-- Urgency alternatives of `_analyze_sentiment`. -/
def urgencyAlts : List (List Char) :=
  ["urgent".toList, "emergency".toList, "acute".toList, "severe".toList,
   "critical".toList, "immediate".toList]

/-- Uncertainty alternatives of `_analyze_sentiment`. -/
def uncertaintyAlts : List (List Char) :=
  ["possible".toList, "potential".toList, "may".toList, "might".toList,
   "could".toList, "uncertain".toList]

/-- Specificity alternatives of `_analyze_sentiment`. -/
def specificityAlts : List (List Char) :=
  ["specific".toList, "particular".toList, "exact".toList, "precise".toList]

/-- Boolean-operator alternatives of `_assess_complexity`. -/
def boolOpAlts : List (List Char) :=
  ["and".toList, "or".toList, "not".toList]

/-- `MLQueryProcessor._get_related_mesh_terms`' relationship table. -/
def relatedMeshTable : List (List Char × List (List Char)) :=
  [("Diabetes Mellitus".toList,
    ["Insulin".toList, "Glucose".toList, "Diabetic Complications".toList,
     "Metabolic Syndrome".toList]),
   ("Hypertension".toList,
    ["Blood Pressure".toList, "Cardiovascular Diseases".toList,
     "Antihypertensive Agents".toList]),
   ("Heart Diseases".toList,
    ["Myocardial Infarction".toList, "Heart Failure".toList,
     "Coronary Artery Disease".toList]),
   ("Neoplasms".toList,
    ["Oncology".toList, "Chemotherapy".toList, "Radiotherapy".toList,
     "Carcinogenesis".toList]),
   ("Depression".toList,
    ["Antidepressive Agents".toList, "Mental Health".toList,
     "Anxiety Disorders".toList]),
   ("COVID-19".toList,
    ["SARS-CoV-2".toList, "Pandemic".toList, "Vaccines".toList,
     "Respiratory Tract Infections".toList])]

/-- User context map passed alongside a query (`user_context`); its content
is stored but never read by the pipeline. -/
abbrev Ctx := List (List Char × List Char)

/-- The injectable clock: the source reads `datetime.now()` for the year
comparison, the 365-day date range, and interaction timestamps. -/
structure Now where
  year : Int
  epochDay : Int
  stamp : Int
deriving DecidableEq

/-- One entry of `entities['mesh_terms']`. -/
structure MeshRef where
  original : List Char
  mesh : List Char
  confidence : ℚ
deriving DecidableEq

/-- One entry of `entities['abbreviations']`. -/
structure AbbrevRef where
  abbreviation : List Char
  expanded : List Char
  confidence : ℚ
deriving DecidableEq

/-- One entry of `entities['demographics']`. -/
structure DemoRef where
  demoType : List Char
  values : List (List Char)
  confidence : ℚ
deriving DecidableEq

/-- One entry of `entities['study_types']`. -/
structure StudyRef where
  studyType : List Char
  confidence : ℚ
deriving DecidableEq

/-- The entity dictionary built by `_extract_medical_entities`.  The
`conditions` and `treatments` lists are initialized but never appended to
anywhere in the source, so their element type is irrelevant; they still
count toward the entity total in `_assess_complexity`. -/
structure Entities where
  mesh_terms : List MeshRef
  abbreviations : List AbbrevRef
  conditions : List Unit
  treatments : List Unit
  demographics : List DemoRef
  study_types : List StudyRef
deriving DecidableEq

/-- One entry of the intent list of `_classify_intent`. -/
structure IntentRef where
  intentType : List Char
  confidence : ℚ
deriving DecidableEq

/-- The sentiment dictionary of `_analyze_sentiment`. -/
structure Sentiment where
  urgency : ℚ
  uncertainty : ℚ
  specificity : ℚ
deriving DecidableEq

/-- The focus dictionary of `_determine_focus`. -/
structure Focus where
  primary : Option (List Char)
  secondary : List (List Char)
  confidence : ℚ
deriving DecidableEq

/-- One entry of `_expand_with_synonyms`' result. -/
structure SynRef where
  original : List Char
  synonyms : List (List Char)
  relevance : ℚ
deriving DecidableEq

/-- One entry of `_find_related_terms`' result. -/
structure RelRef where
  primary : List Char
  related : List (List Char)
  relevance : ℚ
deriving DecidableEq

/-- The semantic-analysis dictionary of `_perform_semantic_analysis`. -/
structure Analysis where
  intent : List IntentRef
  sentiment : Sentiment
  complexity : ℚ
  focus : Focus
  synonyms : List SynRef
  related_terms : List RelRef
deriving DecidableEq

/-- `params['advanced']['date_range']`; the source stores the ISO string of
`now - 365 days`, modelled by the day number. -/
structure DateRange where
  start : Int
deriving DecidableEq

/-- `params['advanced']` of `_generate_search_parameters`. -/
structure Advanced where
  mesh_terms : List (List Char)
  field_restrictions : List (List Char)
  date_range : Option DateRange
  study_types : List (List Char)
  languages : List (List Char)
deriving DecidableEq

/-- The search-parameter dictionary.  `_generate_search_parameters` always
populates `advanced`; `_basic_query_processing` returns a dictionary without
that key, modelled as `none`. -/
structure SearchParams where
  query : List Char
  filters : List (List Char × List Char)
  sort : List Char
  advanced : Option Advanced
  confidence : ℚ
  explanation : List (List Char)
deriving DecidableEq

/-- One interaction appended to `query_history` by `_update_user_model`. -/
structure HEntry where
  query : List Char
  timestamp : Int
  context : Ctx
  processed : Bool
deriving DecidableEq

/-- The two keys `_analyze_user_patterns` writes into `user_preferences`.
The `preferred_domains` dictionary holds at most the keys `oncology` and
`cardiology`; it is modelled by the two counts (an absent key is count 0). -/
structure Prefs where
  oncology : Nat
  cardiology : Nat
  complexity_preference : Option ℚ
deriving DecidableEq

/-- The mutable state of `MLQueryProcessor`: query history (oldest first, as
appended) and user preferences. -/
structure PState where
  query_history : List HEntry
  user_preferences : Prefs
deriving DecidableEq

/-- `MLQueryProcessor._extract_medical_entities`. -/
def extractMedicalEntities (query : List Char) : Entities where
  mesh_terms := meshTerms.filterMap fun tm =>
    if inStr tm.1 query then some ⟨tm.1, tm.2, 0.9⟩ else none
  abbreviations := medicalAbbreviations.filterMap fun ab =>
    if wordSearch query [ab.1] then some ⟨ab.1, ab.2, 0.85⟩ else none
  conditions := []
  treatments := []
  demographics := demographicPatterns.filterMap fun dp =>
    let ms := findall query dp.2
    if ms.isEmpty then none else some ⟨dp.1, dedupFirst (ms.map lowerStr), 0.8⟩
  study_types := studyTypePatterns.filterMap fun sp =>
    if wordSearch query sp.2 then some ⟨sp.1, 0.9⟩ else none

/-- `MLQueryProcessor._classify_intent`. -/
def classifyIntent (query : List Char) : List IntentRef :=
  let intents := intentPatterns.filterMap fun ip =>
    if wordSearch query ip.2 then some ⟨ip.1, 0.8⟩ else none
  if intents.isEmpty then [⟨"general".toList, 0.5⟩] else intents

/-- `MLQueryProcessor._analyze_sentiment`. -/
def analyzeSentiment (query : List Char) : Sentiment where
  urgency := if wordSearch query urgencyAlts then 0.8 else 0.2
  uncertainty := if wordSearch query uncertaintyAlts then 0.7 else 0.3
  specificity := if wordSearch query specificityAlts then 0.9 else 0.5

/-- `MLQueryProcessor._assess_complexity`. -/
def assessComplexity (query : List Char) (entities : Entities) : ℚ :=
  let c : ℚ := 0
  let wordCount := (splitWords query).length
  let c := c + min ((wordCount : ℚ) * 0.1) 1
  let entityCount := entities.mesh_terms.length + entities.abbreviations.length
    + entities.conditions.length + entities.treatments.length
    + entities.demographics.length + entities.study_types.length
  let c := c + min ((entityCount : ℚ) * 0.15) 1
  let c := if wordSearch query boolOpAlts then c + 0.3 else c
  min c 1

/-- `MLQueryProcessor._determine_focus` (the `query` parameter is unused in
the source as well). -/
def determineFocus (_query : List Char) (entities : Entities) : Focus where
  primary := (entities.mesh_terms.head?).map (·.mesh)
  secondary := (entities.mesh_terms.drop 1).map (·.mesh)
  confidence := if entities.mesh_terms.isEmpty then 0 else 0.9

/-- `MLQueryProcessor._expand_with_synonyms`. -/
def expandWithSynonyms (query : List Char) : List SynRef :=
  synonymMap.filterMap fun ts =>
    if inStr ts.1 query then some ⟨ts.1, ts.2, 0.7⟩ else none

/-- `MLQueryProcessor._get_related_mesh_terms`. -/
def getRelatedMeshTerms (meshTerm : List Char) : List (List Char) :=
  match relatedMeshTable.find? (fun r => r.1 = meshTerm) with
  | some r => r.2
  | none => []

/-- `MLQueryProcessor._find_related_terms`. -/
def findRelatedTerms (entities : Entities) : List RelRef :=
  entities.mesh_terms.filterMap fun e =>
    let rel := getRelatedMeshTerms e.mesh
    if rel.isEmpty then none else some ⟨e.mesh, rel, 0.6⟩

/-- `MLQueryProcessor._perform_semantic_analysis`. -/
def performSemanticAnalysis (query : List Char) (entities : Entities) : Analysis where
  intent := classifyIntent query
  sentiment := analyzeSentiment query
  complexity := assessComplexity query entities
  focus := determineFocus query entities
  synonyms := expandWithSynonyms query
  related_terms := findRelatedTerms entities

/-- The intent step of `_calculate_search_confidence`: the source's
truthiness test `if analysis['intent'] and analysis['intent'][0]['confidence'] > 0.7`
adds 0.2 exactly when the intent list is non-empty and its first entry's
confidence exceeds 0.7. -/
def intentHeadBoost (intent : List IntentRef) (c : ℚ) : ℚ :=
  match intent with
  | [] => c
  | i :: _ => if i.confidence > 0.7 then c + 0.2 else c

/-- `MLQueryProcessor._calculate_search_confidence`. -/
def calcSearchConfidence (analysis : Analysis) : ℚ :=
  let c : ℚ := 0.5
  let c := if analysis.focus.primary.isSome then c + 0.3 else c
  let c := intentHeadBoost analysis.intent c
  let c := if analysis.sentiment.uncertainty > 0.6 then c - 0.1 else c
  min (max c 0) 1

/-- `MLQueryProcessor._generate_search_parameters` (its `user_context`
parameter is never read in the source body). -/
def generateSearchParameters (sem : Analysis) (_userContext : Ctx) (now : Now) : SearchParams :=
  let queryParts :=
    (match sem.focus.primary with
     | some m => [quoteTag m "[MeSH Terms]".toList]
     | none => [])
    ++ sem.focus.secondary.map (fun t => quoteTag t "[MeSH Terms]".toList)
    ++ sem.synonyms.flatMap (fun syn =>
        syn.synonyms.map fun s => quoteTag s "[Title/Abstract]".toList)
  let hasTreatment := sem.intent.any fun i => decide (i.intentType = "treatment".toList)
  let urgent := sem.sentiment.urgency > 0.7
  let hasEpi := sem.intent.any fun i => decide (i.intentType = "epidemiology".toList)
  { query := List.intercalate " OR ".toList queryParts
    filters :=
      if hasTreatment then
        [("publication_type".toList, "clinical trial,randomized controlled trial".toList)]
      else []
    sort := if hasEpi then "publication date".toList else "relevance".toList
    advanced := some
      { mesh_terms := []
        field_restrictions := []
        date_range := if urgent then some ⟨now.epochDay - 365⟩ else none
        study_types := []
        languages := ["eng".toList] }
    confidence := calcSearchConfidence sem
    explanation :=
      (if hasTreatment then ["Focusing on treatment studies".toList] else [])
      ++ (if urgent then
            ["Prioritizing recent publications due to urgency indicators".toList] else [])
      ++ (if hasEpi then ["Sorting by date for epidemiological trends".toList] else []) }

/-- `MLQueryProcessor._analyze_user_patterns` (the per-entry
`q.get('complexity', 0.5)` always takes the default: interactions are stored
without a `complexity` key). -/
def analyzeUserPatterns (history : List HEntry) (prefs : Prefs) : Prefs :=
  if history.length < 5 then prefs
  else
    let recent := lastN 10 history
    { oncology := (recent.filter fun e =>
        inStr "cancer".toList e.query || inStr "tumor".toList e.query).length
      cardiology := (recent.filter fun e =>
        inStr "heart".toList e.query || inStr "cardiac".toList e.query).length
      complexity_preference :=
        some ((recent.map fun _ => (0.5 : ℚ)).sum / (recent.length : ℚ)) }

/-- `MLQueryProcessor._update_user_model`: append the interaction, truncate
the history to its most recent 100 entries in the same step, then refresh
the preference analysis (`_save_user_data` only performs file I/O). -/
def updateUserModel (query : List Char) (context : Ctx) (now : Now) (st : PState) : PState :=
  let interaction : HEntry := ⟨query, now.stamp, context, true⟩
  let h := st.query_history ++ [interaction]
  let h := if h.length > 100 then lastN 100 h else h
  ⟨h, analyzeUserPatterns h st.user_preferences⟩

/-- `MLQueryProcessor._basic_query_processing`, the fallback tier. -/
def basicQueryProcessing (query : List Char) : SearchParams where
  query := quoteTag query "[Title/Abstract]".toList
  filters := []
  sort := "relevance".toList
  advanced := none
  confidence := 0.3
  explanation := ["Using basic keyword search as fallback".toList]

/-- The three fallible stages guarded by `process_query`'s `try`: entity
extraction, semantic analysis and parameter synthesis.  Instantiating the
fields with the total functions below recovers the source's happy path;
quantifying over them captures an internal error raised in any stage. -/
structure Phases where
  extract : List Char → Except Unit Entities
  analyze : List Char → Entities → Except Unit Analysis
  generate : Analysis → Ctx → Now → Except Unit SearchParams

/-- The actual stages of the source, which are total. -/
def okPhases : Phases where
  extract := fun q => .ok (extractMedicalEntities q)
  analyze := fun q e => .ok (performSemanticAnalysis q e)
  generate := fun a ctx now => .ok (generateSearchParameters a ctx now)

/-- `MLQueryProcessor.process_query` with its stages abstracted: normalize,
run the three stages, update the user model and return the parameters; any
stage error falls through the `except` to `_basic_query_processing` applied
to the raw input query. -/
def processQueryWith (ph : Phases) (userQuery : List Char) (userContext : Ctx)
    (now : Now) (st : PState) : SearchParams × PState :=
  match ph.extract (normalizeQuery userQuery) with
  | .error _ => (basicQueryProcessing userQuery, st)
  | .ok entities =>
    match ph.analyze (normalizeQuery userQuery) entities with
    | .error _ => (basicQueryProcessing userQuery, st)
    | .ok sem =>
      match ph.generate sem userContext now with
      | .error _ => (basicQueryProcessing userQuery, st)
      | .ok params => (params, updateUserModel userQuery userContext now st)

/-- `MLQueryProcessor.process_query` on the source's actual stages. -/
def processQuery (userQuery : List Char) (userContext : Ctx) (now : Now)
    (st : PState) : SearchParams × PState :=
  processQueryWith okPhases userQuery userContext now st

/-- One suggestion returned by `get_search_suggestions`. -/
structure Suggestion where
  text : List Char
  sType : List Char
  description : List Char
  confidence : ℚ
deriving DecidableEq

/-- `MLQueryProcessor.get_search_suggestions`: lexicon matches (term starts
with the lower-cased partial query), then history matches (lower-cased
containment), one combined list truncated to 8. -/
def getSearchSuggestions (pq : List Char) (history : List HEntry) : List Suggestion :=
  let fromMesh := meshTerms.filterMap fun tm =>
    if (lowerStr pq).isPrefixOf tm.1 then
      some ⟨tm.1, "mesh".toList, "Search for: ".toList ++ tm.2, 0.9⟩
    else none
  let fromHistory := history.filterMap fun e =>
    if inStr (lowerStr pq) (lowerStr e.query) then
      some ⟨e.query, "history".toList, "From your search history".toList, 0.6⟩
    else none
  (fromMesh ++ fromHistory).take 8

/-- A candidate document, with the fields `_calculate_relevance_score`
reads (`_process_paper_summary` also builds identification and citation
fields, which the ranking never touches). -/
structure Paper where
  title : List Char
  abstract : List Char
  year : Option Int
  publication_types : List (List Char)
deriving DecidableEq

/-- A ranked document: the candidate together with its `ml_score`. -/
structure ScoredPaper where
  paper : Paper
  ml_score : ℚ
deriving DecidableEq

/-- `EnhancedPubMedSearch._calculate_text_relevance`.  `focusPrimary` models
`ml_params.get('focus', {}).get('primary')`; the parameter dictionary built
by `_generate_search_parameters` carries no `focus` key, so the callers in
`_calculate_relevance_score` always see `none` there. -/
def calcTextRelevance (text query : List Char) (focusPrimary : Option (List Char)) : ℚ :=
  let r : ℚ := 0
  let r := if inStr query text then r + 0.8 else r
  let queryWords := splitWords query
  let matchedWords := queryWords.filter fun w => decide (w.length > 2) && inStr w text
  let r := if queryWords.isEmpty then r
    else r + ((matchedWords.length : ℚ) / (queryWords.length : ℚ)) * 0.6
  let r := match focusPrimary with
    | some m => if inStr (lowerStr m) text then r + 0.3 else r
    | none => r
  min r 1

/-- The recency step of `_calculate_relevance_score`, following the
source's truthiness test `if year and year >= now.year - 2` (both `None`
and the year 0 fail it). -/
def recencyBonus (year : Option Int) (now : Now) : ℚ :=
  match year with
  | some y => if y ≠ 0 ∧ y ≥ now.year - 2 then 0.1 else 0
  | none => 0

/-- The study-type step of `_calculate_relevance_score`: 0.2 once some
publication type contains some requested study type (the loop's `break`
makes the bonus fire at most once). -/
def studyTypeBonus (paper : Paper) (studyTypes : List (List Char)) : ℚ :=
  if ¬ studyTypes.isEmpty ∧ paper.publication_types.any (fun pt =>
      studyTypes.any fun st => inStr (lowerStr st) (lowerStr pt)) = true
  then 0.2 else 0

/-- `EnhancedPubMedSearch._calculate_relevance_score`: base 0.5, weighted
title and abstract relevance, recency bonus, study-type bonus, then an
upper clamp at 1. -/
def calcRelevanceScore (paper : Paper) (mlParams : SearchParams)
    (originalQuery : List Char) (now : Now) : ℚ :=
  let title := lowerStr paper.title
  let abstract := lowerStr paper.abstract
  let query := lowerStr originalQuery
  let score : ℚ := 0.5
  let score := score + calcTextRelevance title query none * 0.4
  let score := score + calcTextRelevance abstract query none * 0.3
  let score := score + recencyBonus paper.year now
  let studyTypes := match mlParams.advanced with
    | some a => a.study_types
    | none => []
  let score := score + studyTypeBonus paper studyTypes
  min score 1

/-- A run of `process_query` on which some guarded stage raised: the
`try` block's error condition. -/
def pipelineFails (ph : Phases) (q : List Char) (ctx : Ctx) (now : Now) : Prop :=
  match ph.extract (normalizeQuery q) with
  | .error _ => True
  | .ok e =>
    match ph.analyze (normalizeQuery q) e with
    | .error _ => True
    | .ok a =>
      match ph.generate a ctx now with
      | .error _ => True
      | .ok _ => False

/-- A stage assignment whose entity extraction raises, for exercising the
fallback path on a concrete run. -/
def failingPhases : Phases where
  extract := fun _ => .error ()
  analyze := okPhases.analyze
  generate := okPhases.generate

/-- The highest confidence appearing in an intent list (0 when empty). -/
def highestConfidence (intents : List IntentRef) : ℚ :=
  intents.foldr (fun i acc => max i.confidence acc) 0

/-- The confidence formula as the spec words it: base 0.5, +0.3 for a
primary focus, +0.2 when the highest-confidence intent entry exceeds 0.7,
-0.1 when uncertainty exceeds 0.6, clamped to the unit interval.  (The
source tests `intent[0]` instead of the highest-confidence entry; the two
agree on every analysis the pipeline produces.) -/
def specConfidenceFormula (a : Analysis) : ℚ :=
  min (max ((0.5 : ℚ)
    + (if a.focus.primary.isSome then 0.3 else 0)
    + (if highestConfidence a.intent > 0.7 then 0.2 else 0)
    - (if a.sentiment.uncertainty > 0.6 then 0.1 else 0)) 0) 1

/-- `get_search_suggestions` exactly as the claim words it: lexicon entries
whose phrase starts with the lower-cased partial query, then history
entries whose stored query contains the partial query as a (case-sensitive)
substring in most-recent-first order, truncated to 8 after concatenation. -/
def claimSuggestions (pq : List Char) (history : List HEntry) : List Suggestion :=
  let fromMesh : List Suggestion := meshTerms.filterMap fun tm =>
    if (lowerStr pq).isPrefixOf tm.1 then
      some ⟨tm.1, "mesh".toList, "Search for: ".toList ++ tm.2, 0.9⟩
    else none
  let fromHistory : List Suggestion := history.reverse.filterMap fun e =>
    if inStr pq e.query then
      some ⟨e.query, "history".toList, "From your search history".toList, 0.6⟩
    else none
  (fromMesh ++ fromHistory).take 8

/-- The amended description of `get_search_suggestions`: matching lexicon
entries in iteration order, then history entries whose lower-cased query
contains the lower-cased partial query, in stored (oldest-first) history
order, truncated to 8 after concatenation. -/
def amendedSuggestions (pq : List Char) (history : List HEntry) : List Suggestion :=
  let fromMesh : List Suggestion :=
    (meshTerms.filter fun tm => (lowerStr pq).isPrefixOf tm.1).map fun tm =>
      ⟨tm.1, "mesh".toList, "Search for: ".toList ++ tm.2, 0.9⟩
  let fromHistory : List Suggestion :=
    (history.filter fun e => inStr (lowerStr pq) (lowerStr e.query)).map fun e =>
      ⟨e.query, "history".toList, "From your search history".toList, 0.6⟩
  (fromMesh ++ fromHistory).take 8

/-- No two adjacent spaces anywhere in the string (an executable check). -/
def noTwoSpaces : List Char → Bool
  | [] => true
  | [_] => true
  | a :: b :: rest => !(a == ' ' && b == ' ') && noTwoSpaces (b :: rest)

/-- Normal-form strings: lower-case fixed points of `_normalize_query` as
the claim describes them: only word characters, hyphens and spaces, no two
adjacent spaces, and no space at either end. -/
def NormalForm (s : List Char) : Prop :=
  (∀ c ∈ s, isWordChar c = true ∨ c = '-' ∨ c = ' ') ∧
  (∀ c ∈ s, c.toLower = c) ∧
  noTwoSpaces s = true ∧
  s.head? ≠ some ' ' ∧ s.getLast? ≠ some ' '

instance (s : List Char) : Decidable (NormalForm s) :=
  inferInstanceAs (Decidable ((∀ c ∈ s, isWordChar c = true ∨ c = '-' ∨ c = ' ') ∧
    (∀ c ∈ s, c.toLower = c) ∧
    noTwoSpaces s = true ∧
    s.head? ≠ some ' ' ∧ s.getLast? ≠ some ' '))

/-- Descending-score order used by `scored_papers.sort(key=..., reverse=True)`. -/
def scoreGe (a b : ScoredPaper) : Prop :=
  b.ml_score ≤ a.ml_score

instance : DecidableRel scoreGe :=
  fun a b => inferInstanceAs (Decidable (b.ml_score ≤ a.ml_score))

instance : IsTotal ScoredPaper scoreGe :=
  ⟨fun a b => le_total b.ml_score a.ml_score⟩

instance : IsTrans ScoredPaper scoreGe :=
  ⟨fun _ _ _ h1 h2 => le_trans h2 h1⟩

/-- `EnhancedPubMedSearch._apply_ml_ranking`: score every paper, then sort
by score descending.  Python's `list.sort` is a stable sort and
`reverse=True` reverses only the comparison (not the tie order), so it is
modelled by a stable insertion sort under `scoreGe`. -/
def applyMlRanking (papers : List Paper) (mlParams : SearchParams)
    (originalQuery : List Char) (now : Now) : List ScoredPaper :=
  let scored := papers.map fun p => ScoredPaper.mk p (calcRelevanceScore p mlParams originalQuery now)
  scored.insertionSort scoreGe

theorem calcTextRelevance_nonneg (text query : List Char) (fp : Option (List Char)) :
    0 ≤ calcTextRelevance text query fp := by
  unfold calcTextRelevance
  dsimp only
  refine le_min ?_ zero_le_one
  cases fp with
  | none => split_ifs <;> positivity
  | some m => dsimp only; split_ifs <;> positivity

theorem calcTextRelevance_le_one (text query : List Char) (fp : Option (List Char)) :
    calcTextRelevance text query fp ≤ 1 := by
  unfold calcTextRelevance
  exact min_le_right _ _

theorem recencyBonus_nonneg (year : Option Int) (now : Now) : 0 ≤ recencyBonus year now := by
  unfold recencyBonus
  cases year with
  | none => norm_num
  | some y => dsimp only; split_ifs <;> norm_num

theorem studyTypeBonus_nonneg (paper : Paper) (sts : List (List Char)) :
    0 ≤ studyTypeBonus paper sts := by
  unfold studyTypeBonus
  split_ifs <;> norm_num

theorem calcRelevanceScore_lb (p : Paper) (params : SearchParams) (oq : List Char)
    (now : Now) : 1/2 ≤ calcRelevanceScore p params oq now := by
  unfold calcRelevanceScore
  dsimp only
  refine le_min ?_ (by norm_num)
  have ht := calcTextRelevance_nonneg (lowerStr p.title) (lowerStr oq) none
  have ha := calcTextRelevance_nonneg (lowerStr p.abstract) (lowerStr oq) none
  have hy := recencyBonus_nonneg p.year now
  have hs := studyTypeBonus_nonneg p
    (match params.advanced with | some a => a.study_types | none => [])
  nlinarith [mul_nonneg ht (by norm_num : (0:ℚ) ≤ 0.4),
    mul_nonneg ha (by norm_num : (0:ℚ) ≤ 0.3)]

theorem calcRelevanceScore_ub (p : Paper) (params : SearchParams) (oq : List Char)
    (now : Now) : calcRelevanceScore p params oq now ≤ 1 := by
  unfold calcRelevanceScore
  exact min_le_right _ _

theorem calcSearchConfidence_mem_unit (a : Analysis) :
    0 ≤ calcSearchConfidence a ∧ calcSearchConfidence a ≤ 1 := by
  unfold calcSearchConfidence
  exact ⟨le_min (le_max_right _ _) (by norm_num), min_le_right _ _⟩

theorem assessComplexity_mem_unit (q : List Char) (e : Entities) :
    0 ≤ assessComplexity q e ∧ assessComplexity q e ≤ 1 := by
  unfold assessComplexity
  dsimp only
  refine ⟨le_min ?_ (by norm_num), min_le_right _ _⟩
  have h1 : (0:ℚ) ≤ min (((splitWords q).length : ℚ) * 0.1) 1 :=
    le_min (by positivity) (by norm_num)
  have h2 : (0:ℚ) ≤ min (((e.mesh_terms.length + e.abbreviations.length
      + e.conditions.length + e.treatments.length + e.demographics.length
      + e.study_types.length : Nat) : ℚ) * 0.15) 1 :=
    le_min (by positivity) (by norm_num)
  split_ifs <;> linarith

/-- Claim C2: every synthesized confidence, every complexity score, each of
the three sentiment scores, and every per-document relevance score lies in
the closed unit interval. -/
theorem scores_in_unit_interval (a : Analysis) (q : List Char) (e : Entities)
    (p : Paper) (params : SearchParams) (oq : List Char) (now : Now) :
    (0 ≤ calcSearchConfidence a ∧ calcSearchConfidence a ≤ 1) ∧
    (0 ≤ assessComplexity q e ∧ assessComplexity q e ≤ 1) ∧
    (0 ≤ (analyzeSentiment q).urgency ∧ (analyzeSentiment q).urgency ≤ 1) ∧
    (0 ≤ (analyzeSentiment q).uncertainty ∧ (analyzeSentiment q).uncertainty ≤ 1) ∧
    (0 ≤ (analyzeSentiment q).specificity ∧ (analyzeSentiment q).specificity ≤ 1) ∧
    (0 ≤ calcRelevanceScore p params oq now ∧ calcRelevanceScore p params oq now ≤ 1) := by
  refine ⟨calcSearchConfidence_mem_unit a, assessComplexity_mem_unit q e, ?_, ?_, ?_,
    ⟨le_trans (by norm_num) (calcRelevanceScore_lb p params oq now),
     calcRelevanceScore_ub p params oq now⟩⟩ <;>
    unfold analyzeSentiment <;> dsimp only <;> split_ifs <;> norm_num

/-- Claim C9: every relevance score is at least the base 0.5 — all four
contributions are non-negative and only the upper bound is clamped — and a
document entirely unrelated to the query indeed receives exactly 0.5. -/
theorem relevance_score_lower_bound (p : Paper) (params : SearchParams)
    (oq : List Char) (now : Now) :
    1/2 ≤ calcRelevanceScore p params oq now ∧
    calcRelevanceScore p params oq now ≤ 1 ∧
    calcRelevanceScore ⟨"zzz".toList, "zzz".toList, none, []⟩
      (basicQueryProcessing "q".toList) "diabetes".toList ⟨2026, 0, 0⟩ = 1/2 := by
  refine ⟨calcRelevanceScore_lb p params oq now, calcRelevanceScore_ub p params oq now, ?_⟩
  have htr : calcTextRelevance (lowerStr "zzz".toList) (lowerStr "diabetes".toList) none = 0 := by
    unfold calcTextRelevance
    dsimp only
    rw [show inStr (lowerStr "diabetes".toList) (lowerStr "zzz".toList) = false from by decide]
    rw [show splitWords (lowerStr "diabetes".toList) = ["diabetes".toList] from by decide]
    rw [show List.filter (fun w => decide (2 < w.length) && inStr w (lowerStr "zzz".toList))
          ["diabetes".toList] = [] from by decide]
    norm_num [min_def]
  unfold calcRelevanceScore
  dsimp only
  rw [htr]
  norm_num [recencyBonus, studyTypeBonus, basicQueryProcessing, min_def]

theorem toNat_ofNat_valid (n : Nat) (h : n < 55296) : (Char.ofNat n).toNat = n := by
  have hv : Nat.isValidChar n := Or.inl h
  rw [Char.ofNat, dif_pos hv]
  rfl

theorem toLower_idem (c : Char) : c.toLower.toLower = c.toLower := by
  unfold Char.toLower
  by_cases h : c.toNat ≥ 65 ∧ c.toNat ≤ 90
  · rw [if_pos h]
    have h1 : (Char.ofNat (c.toNat + 32)).toNat = c.toNat + 32 :=
      toNat_ofNat_valid _ (by omega)
    rw [if_neg]
    rw [h1]
    omega
  · rw [if_neg h, if_neg h]

theorem isPySpace_cases (c : Char) (h : isPySpace c = true) :
    c = ' ' ∨ c = '\t' ∨ c = '\n' ∨ c = '\r' ∨ c = '\x0b' ∨ c = '\x0c' := by
  have h' := h
  simp only [isPySpace, Bool.or_eq_true, beq_iff_eq] at h'
  tauto

theorem space_of_good (c : Char) (hg : isWordChar c = true ∨ c = '-' ∨ c = ' ')
    (hs : isPySpace c = true) : c = ' ' := by
  rcases hg with hw | rfl | rfl
  · rcases isPySpace_cases c hs with rfl | rfl | rfl | rfl | rfl | rfl <;>
      exact absurd hw (by decide)
  · exact absurd hs (by decide)
  · rfl

theorem map_fix {α : Type} {f : α → α} : ∀ (s : List α), (∀ c ∈ s, f c = c) → s.map f = s
  | [], _ => rfl
  | c :: cs, h => by
    rw [List.map_cons, h c (List.mem_cons_self _ _),
      map_fix cs fun x hx => h x (List.mem_cons_of_mem _ hx)]

theorem lowerStr_fixed (q : List Char) : ∀ c ∈ lowerStr q, c.toLower = c := by
  intro c hc
  unfold lowerStr at hc
  obtain ⟨x, _, rfl⟩ := List.mem_map.mp hc
  exact toLower_idem x

theorem collapseWS_cons_cons (c1 c2 : Char) (rest : List Char) :
    collapseWS (c1 :: c2 :: rest) =
      if isPySpace c1 then
        (if isPySpace c2 then collapseWS (c2 :: rest) else ' ' :: collapseWS (c2 :: rest))
      else c1 :: collapseWS (c2 :: rest) := rfl

theorem collapseWS_singleton (c : Char) :
    collapseWS [c] = if isPySpace c then [' '] else [c] := rfl

theorem collapseWS_mem : ∀ (s : List Char), ∀ c ∈ collapseWS s, c ∈ s ∨ c = ' '
  | [], c, hc => absurd hc (by simp [collapseWS])
  | [c1], c, hc => by
    rw [collapseWS_singleton] at hc
    by_cases h1 : isPySpace c1 = true
    · rw [if_pos h1] at hc
      right
      simpa using hc
    · rw [if_neg h1] at hc
      left
      simpa using hc
  | c1 :: c2 :: rest, c, hc => by
    rw [collapseWS_cons_cons] at hc
    by_cases h1 : isPySpace c1 = true
    · rw [if_pos h1] at hc
      by_cases h2 : isPySpace c2 = true
      · rw [if_pos h2] at hc
        rcases collapseWS_mem (c2 :: rest) c hc with hm | hs
        · exact Or.inl (List.mem_cons_of_mem _ hm)
        · exact Or.inr hs
      · rw [if_neg h2] at hc
        rcases List.mem_cons.mp hc with rfl | hc'
        · exact Or.inr rfl
        · rcases collapseWS_mem (c2 :: rest) c hc' with hm | hs
          · exact Or.inl (List.mem_cons_of_mem _ hm)
          · exact Or.inr hs
    · rw [if_neg h1] at hc
      rcases List.mem_cons.mp hc with rfl | hc'
      · exact Or.inl (List.mem_cons_self _ _)
      · rcases collapseWS_mem (c2 :: rest) c hc' with hm | hs
        · exact Or.inl (List.mem_cons_of_mem _ hm)
        · exact Or.inr hs

theorem collapseWS_space : ∀ (s : List Char), ∀ c ∈ collapseWS s,
    isPySpace c = true → c = ' '
  | [], c, hc, _ => absurd hc (by simp [collapseWS])
  | [c1], c, hc, hs => by
    rw [collapseWS_singleton] at hc
    by_cases h1 : isPySpace c1 = true
    · rw [if_pos h1] at hc
      simpa using hc
    · rw [if_neg h1] at hc
      have : c = c1 := by simpa using hc
      rw [this] at hs
      exact absurd hs h1
  | c1 :: c2 :: rest, c, hc, hs => by
    rw [collapseWS_cons_cons] at hc
    by_cases h1 : isPySpace c1 = true
    · rw [if_pos h1] at hc
      by_cases h2 : isPySpace c2 = true
      · rw [if_pos h2] at hc
        exact collapseWS_space (c2 :: rest) c hc hs
      · rw [if_neg h2] at hc
        rcases List.mem_cons.mp hc with rfl | hc'
        · rfl
        · exact collapseWS_space (c2 :: rest) c hc' hs
    · rw [if_neg h1] at hc
      rcases List.mem_cons.mp hc with rfl | hc'
      · exact absurd hs h1
      · exact collapseWS_space (c2 :: rest) c hc' hs

theorem collapseWS_head (c : Char) (rest : List Char) (h : ¬ isPySpace c = true) :
    (collapseWS (c :: rest)).head? = some c := by
  cases rest with
  | nil => rw [collapseWS_singleton, if_neg h]; rfl
  | cons c2 rest2 => rw [collapseWS_cons_cons, if_neg h]; rfl

theorem collapseWS_chain : ∀ (s : List Char),
    List.Chain' (fun a b => ¬(isPySpace a = true ∧ isPySpace b = true)) (collapseWS s)
  | [] => by simp [collapseWS]
  | [c1] => by
    rw [collapseWS_singleton]
    by_cases h1 : isPySpace c1 = true
    · rw [if_pos h1]; exact List.chain'_singleton _
    · rw [if_neg h1]; exact List.chain'_singleton _
  | c1 :: c2 :: rest => by
    rw [collapseWS_cons_cons]
    by_cases h1 : isPySpace c1 = true
    · rw [if_pos h1]
      by_cases h2 : isPySpace c2 = true
      · rw [if_pos h2]
        exact collapseWS_chain (c2 :: rest)
      · rw [if_neg h2]
        rw [List.chain'_cons']
        refine ⟨?_, collapseWS_chain (c2 :: rest)⟩
        intro y hy
        rw [collapseWS_head c2 rest h2] at hy
        have : c2 = y := by simpa using hy
        rw [← this]
        intro hcontra
        exact h2 hcontra.2
    · rw [if_neg h1]
      rw [List.chain'_cons']
      refine ⟨?_, collapseWS_chain (c2 :: rest)⟩
      intro y _ hcontra
      exact h1 hcontra.1

theorem collapseWS_id : ∀ (s : List Char),
    (∀ c ∈ s, isPySpace c = true → c = ' ') →
    List.Chain' (fun a b => ¬(a = ' ' ∧ b = ' ')) s → collapseWS s = s
  | [], _, _ => rfl
  | [c1], hSp, _ => by
    rw [collapseWS_singleton]
    by_cases h1 : isPySpace c1 = true
    · rw [if_pos h1, hSp c1 (List.mem_cons_self _ _) h1]
    · rw [if_neg h1]
  | c1 :: c2 :: rest, hSp, hch => by
    rw [collapseWS_cons_cons]
    have hch2 : List.Chain' (fun a b => ¬(a = ' ' ∧ b = ' ')) (c2 :: rest) :=
      (List.chain'_cons.mp hch).2
    have hR : ¬(c1 = ' ' ∧ c2 = ' ') := (List.chain'_cons.mp hch).1
    have hSp2 : ∀ c ∈ c2 :: rest, isPySpace c = true → c = ' ' :=
      fun c hc => hSp c (List.mem_cons_of_mem _ hc)
    by_cases h1 : isPySpace c1 = true
    · have hc1 : c1 = ' ' := hSp c1 (List.mem_cons_self _ _) h1
      by_cases h2 : isPySpace c2 = true
      · exact absurd ⟨hc1, hSp2 c2 (List.mem_cons_self _ _) h2⟩ hR
      · rw [if_pos h1, if_neg h2, collapseWS_id (c2 :: rest) hSp2 hch2, hc1]
    · rw [if_neg h1, collapseWS_id (c2 :: rest) hSp2 hch2]

theorem head?_dropWhile {p : Char → Bool} {c : Char} :
    ∀ (s : List Char), (List.dropWhile p s).head? = some c → p c = false
  | [], h => by cases h
  | a :: l, h => by
    by_cases hp : p a = true
    · rw [List.dropWhile_cons_of_pos hp] at h
      exact head?_dropWhile l h
    · rw [List.dropWhile_cons_of_neg hp] at h
      have : a = c := by simpa using h
      rw [← this]
      exact Bool.not_eq_true _ ▸ (by simpa using hp)

theorem pyStrip_subset (s : List Char) : pyStrip s ⊆ s := fun _ hc =>
  (List.IsSuffix.sublist (List.dropWhile_suffix _)).subset
    ((List.IsPrefix.sublist (List.rdropWhile_prefix _ _)).subset hc)

theorem pyStrip_chain {R : Char → Char → Prop} {s : List Char}
    (h : List.Chain' R s) : List.Chain' R (pyStrip s) :=
  List.Chain'.prefix (List.Chain'.suffix h (List.dropWhile_suffix _))
    (List.rdropWhile_prefix _ _)

theorem pyStrip_head {s : List Char} {c : Char}
    (hc : (pyStrip s).head? = some c) : isPySpace c = false := by
  obtain ⟨u, hu⟩ : pyStrip s <+: List.dropWhile isPySpace s :=
    List.rdropWhile_prefix _ _
  cases hl : pyStrip s with
  | nil => rw [hl] at hc; cases hc
  | cons a tail =>
    rw [hl] at hc hu
    have hac : a = c := by simpa using hc
    apply head?_dropWhile (p := isPySpace) s
    rw [← hu, ← hac]
    rfl

theorem pyStrip_last {s : List Char} {c : Char}
    (hc : (pyStrip s).getLast? = some c) : isPySpace c = false := by
  have hne : pyStrip s ≠ [] := by
    intro h0
    rw [h0] at hc
    cases hc
  have hlast : ¬ isPySpace ((pyStrip s).getLast hne) = true :=
    List.rdropWhile_last_not isPySpace (List.dropWhile isPySpace s) hne
  rw [List.getLast?_eq_getLast _ hne] at hc
  have hcc : (pyStrip s).getLast hne = c := by simpa using hc
  rw [← hcc]
  simpa using hlast

theorem pyStrip_id (s : List Char) (hh : s.head? ≠ some ' ') (hl : s.getLast? ≠ some ' ')
    (hgood : ∀ c ∈ s, isWordChar c = true ∨ c = '-' ∨ c = ' ') : pyStrip s = s := by
  have h1 : List.dropWhile isPySpace s = s := by
    cases s with
    | nil => rfl
    | cons a l =>
      apply List.dropWhile_cons_of_neg
      intro hsp
      have ha : a = ' ' := space_of_good a (hgood a (List.mem_cons_self _ _)) hsp
      exact hh (by rw [ha]; rfl)
  have h2 : List.rdropWhile isPySpace s = s := by
    rw [List.rdropWhile_eq_self_iff]
    intro hne hsp
    have hg := hgood _ (List.getLast_mem hne)
    have : s.getLast hne = ' ' := space_of_good _ hg hsp
    exact hl (by rw [List.getLast?_eq_getLast s hne, this])
  unfold pyStrip
  rw [h1, h2]

theorem replaceNonWord_good (s : List Char) :
    ∀ c ∈ replaceNonWord s, isWordChar c = true ∨ isPySpace c = true ∨ c = '-' := by
  intro c hc
  unfold replaceNonWord at hc
  obtain ⟨x, _, hx⟩ := List.mem_map.mp hc
  by_cases hcond : (isWordChar x || isPySpace x || x == '-') = true
  · rw [if_pos hcond] at hx
    rw [← hx]
    have h' : (isWordChar x = true ∨ isPySpace x = true) ∨ x = '-' := by
      simpa [Bool.or_eq_true, beq_iff_eq] using hcond
    tauto
  · rw [if_neg hcond] at hx
    rw [← hx]
    right; left; decide

theorem replaceNonWord_fixed (s : List Char) (hfix : ∀ c ∈ s, c.toLower = c) :
    ∀ c ∈ replaceNonWord s, c.toLower = c := by
  intro c hc
  unfold replaceNonWord at hc
  obtain ⟨x, hxs, hx⟩ := List.mem_map.mp hc
  by_cases hcond : (isWordChar x || isPySpace x || x == '-') = true
  · rw [if_pos hcond] at hx
    rw [← hx]
    exact hfix x hxs
  · rw [if_neg hcond] at hx
    rw [← hx]
    decide

theorem noTwoSpaces_iff : ∀ (s : List Char),
    noTwoSpaces s = true ↔ List.Chain' (fun a b => ¬(a = ' ' ∧ b = ' ')) s
  | [] => by simp [noTwoSpaces]
  | [c] => by simp [noTwoSpaces]
  | a :: b :: rest => by
    rw [List.chain'_cons]
    constructor
    · intro h
      simp only [noTwoSpaces, Bool.and_eq_true] at h
      refine ⟨?_, (noTwoSpaces_iff (b :: rest)).mp h.2⟩
      rintro ⟨rfl, rfl⟩
      simp at h
    · rintro ⟨hR, hch⟩
      simp only [noTwoSpaces, Bool.and_eq_true]
      refine ⟨?_, (noTwoSpaces_iff (b :: rest)).mpr hch⟩
      by_cases ha : a = ' '
      · by_cases hb : b = ' '
        · exact absurd ⟨ha, hb⟩ hR
        · subst ha
          simp [hb]
      · simp [ha]

theorem normalForm_normalize (q : List Char) : NormalForm (normalizeQuery q) := by
  have hfix0 : ∀ c ∈ pyStrip (lowerStr q), c.toLower = c :=
    fun c hc => lowerStr_fixed q c (pyStrip_subset _ hc)
  have h1good := replaceNonWord_good (pyStrip (lowerStr q))
  have h1fix := replaceNonWord_fixed (pyStrip (lowerStr q)) hfix0
  have h2mem := collapseWS_mem (replaceNonWord (pyStrip (lowerStr q)))
  have h2space := collapseWS_space (replaceNonWord (pyStrip (lowerStr q)))
  have h2chain := collapseWS_chain (replaceNonWord (pyStrip (lowerStr q)))
  have h2good : ∀ c ∈ collapseWS (replaceNonWord (pyStrip (lowerStr q))),
      isWordChar c = true ∨ c = '-' ∨ c = ' ' := by
    intro c hc
    rcases h2mem c hc with hm | rfl
    · rcases h1good c hm with hw | hsp | hd
      · exact Or.inl hw
      · exact Or.inr (Or.inr (h2space c hc hsp))
      · exact Or.inr (Or.inl hd)
    · exact Or.inr (Or.inr rfl)
  have h2fix : ∀ c ∈ collapseWS (replaceNonWord (pyStrip (lowerStr q))), c.toLower = c := by
    intro c hc
    rcases h2mem c hc with hm | rfl
    · exact h1fix c hm
    · decide
  refine ⟨?_, ?_, ?_, ?_, ?_⟩
  · exact fun c hc => h2good c (pyStrip_subset _ hc)
  · exact fun c hc => h2fix c (pyStrip_subset _ hc)
  · rw [noTwoSpaces_iff]
    refine List.Chain'.imp ?_ (pyStrip_chain h2chain)
    intro a b hnab hab
    exact hnab ⟨by rw [hab.1]; decide, by rw [hab.2]; decide⟩
  · intro hcontra
    have := pyStrip_head hcontra
    exact absurd this (by decide)
  · intro hcontra
    have := pyStrip_last hcontra
    exact absurd this (by decide)

theorem normalForm_fixed (s : List Char) (h : NormalForm s) : normalizeQuery s = s := by
  obtain ⟨hgood, hfix, hchain, hh, hl⟩ := h
  have hlow : lowerStr s = s := map_fix s hfix
  have hstrip1 : pyStrip s = s := pyStrip_id s hh hl hgood
  have hrepl : replaceNonWord s = s := by
    apply map_fix
    intro c hc
    rcases hgood c hc with hw | rfl | rfl
    · rw [if_pos]
      simp [hw]
    · rw [if_pos]
      decide
    · rw [if_pos]
      decide
  have hcoll : collapseWS s = s :=
    collapseWS_id s (fun c hc hs => space_of_good c (hgood c hc) hs)
      ((noTwoSpaces_iff s).mp hchain)
  unfold normalizeQuery
  rw [hlow, hstrip1, hrepl, hcoll, hstrip1]

/-- Claim C10: `_normalize_query` is idempotent, and every string that is
already lower-case, consists only of word characters, hyphens and single
internal spaces, and has no leading or trailing whitespace is a fixed
point. -/
theorem normalize_idempotent :
    (∀ q : List Char, normalizeQuery (normalizeQuery q) = normalizeQuery q) ∧
    (∀ s : List Char, NormalForm s → normalizeQuery s = s) :=
  ⟨fun q => normalForm_fixed _ (normalForm_normalize q), fun s h => normalForm_fixed s h⟩

/-- Witness for C10: a concrete normal-form string is untouched by
normalization. -/
theorem normalize_idempotent_witness :
    NormalForm "ab-c d".toList ∧ normalizeQuery "ab-c d".toList = "ab-c d".toList :=
  ⟨by decide, normalize_idempotent.2 "ab-c d".toList (by decide)⟩

theorem filter_score_orderedInsert (x : ScoredPaper) (l : List ScoredPaper) (s : ℚ) :
    (l.orderedInsert scoreGe x).filter (fun d => decide (d.ml_score = s)) =
    ((x :: l).filter (fun d => decide (d.ml_score = s))) := by
  rw [List.orderedInsert_eq_take_drop, List.filter_append]
  by_cases hx : x.ml_score = s
  · have htw : (l.takeWhile fun b => decide ¬ scoreGe x b).filter
        (fun d => decide (d.ml_score = s)) = [] := by
      rw [List.filter_eq_nil_iff]
      intro b hb
      have hpb := List.mem_takeWhile_imp hb
      simp only [decide_eq_true_eq] at hpb
      unfold scoreGe at hpb
      simp only [decide_eq_true_eq]
      intro hbs
      exact hpb (le_of_eq (hbs.trans hx.symm))
    rw [htw, List.nil_append, List.filter_cons, List.filter_cons]
    simp only [hx, decide_true_eq_true, if_pos]
    congr 1
    have := congrArg (List.filter fun d => decide (d.ml_score = s))
      (List.takeWhile_append_dropWhile (p := fun b => decide ¬ scoreGe x b) (l := l))
    rw [List.filter_append, htw, List.nil_append] at this
    exact this
  · simp only [List.filter_cons, decide_eq_true_eq, hx, if_neg, if_false]
    have := congrArg (List.filter fun d => decide (d.ml_score = s))
      (List.takeWhile_append_dropWhile (p := fun b => decide ¬ scoreGe x b) (l := l))
    rw [List.filter_append] at this
    simpa using this

theorem filter_score_insertionSort (l : List ScoredPaper) (s : ℚ) :
    (l.insertionSort scoreGe).filter (fun d => decide (d.ml_score = s)) =
    l.filter (fun d => decide (d.ml_score = s)) := by
  induction l with
  | nil => rfl
  | cons x l ih =>
    show ((l.insertionSort scoreGe).orderedInsert scoreGe x).filter _ = _
    rw [filter_score_orderedInsert, List.filter_cons, List.filter_cons, ih]

/-- Claim C3: the ranking returns exactly the scored input documents (a
permutation), sorted by descending `ml_score`; documents with equal scores
keep their input order (the filter at every score value is unchanged), and
an empty input yields an empty output. -/
theorem ranking_sorted_stable (papers : List Paper) (params : SearchParams)
    (oq : List Char) (now : Now) :
    (applyMlRanking papers params oq now).Perm
      (papers.map fun p => ScoredPaper.mk p (calcRelevanceScore p params oq now)) ∧
    List.Sorted scoreGe (applyMlRanking papers params oq now) ∧
    (∀ s : ℚ, (applyMlRanking papers params oq now).filter (fun d => decide (d.ml_score = s))
      = (papers.map fun p => ScoredPaper.mk p (calcRelevanceScore p params oq now)).filter
          (fun d => decide (d.ml_score = s))) ∧
    applyMlRanking [] params oq now = [] :=
  ⟨List.perm_insertionSort scoreGe _, List.sorted_insertionSort scoreGe _,
   fun s => filter_score_insertionSort _ s, rfl⟩

theorem intentMatches_conf (q : List Char) :
    ∀ i ∈ (intentPatterns.filterMap fun ip =>
      if wordSearch q ip.2 then some (⟨ip.1, 0.8⟩ : IntentRef) else none),
      i.confidence = 0.8 := by
  intro i hi
  simp only [List.mem_filterMap] at hi
  obtain ⟨ip, _, hif⟩ := hi
  by_cases h : wordSearch q ip.2 = true
  · rw [if_pos h] at hif
    cases hif
    rfl
  · rw [if_neg h] at hif
    cases hif

theorem highestConfidence_eq (l : List IntentRef) (h : ∀ i ∈ l, i.confidence = 0.8)
    (hne : l ≠ []) : highestConfidence l = 0.8 := by
  induction l with
  | nil => exact absurd rfl hne
  | cons x xs ih =>
    unfold highestConfidence at ih ⊢
    simp only [List.foldr_cons]
    rw [h x (List.mem_cons_self _ _)]
    cases xs with
    | nil =>
      simp only [List.foldr_nil]
      exact max_eq_left (by norm_num)
    | cons y ys =>
      rw [ih (fun i hi => h i (List.mem_cons_of_mem _ hi)) (by simp)]
      exact max_self _

theorem intent_step (q : List Char) (c : ℚ) :
    intentHeadBoost (classifyIntent q) c
      = c + (if highestConfidence (classifyIntent q) > 0.7 then (0.2 : ℚ) else 0) := by
  have hconf := intentMatches_conf q
  unfold classifyIntent at *
  dsimp only at *
  by_cases hme : (intentPatterns.filterMap fun ip =>
      if wordSearch q ip.2 then some (⟨ip.1, (0.8:ℚ)⟩ : IntentRef) else none).isEmpty
  · rw [if_pos hme]
    unfold intentHeadBoost highestConfidence
    simp only [List.foldr_cons, List.foldr_nil]
    rw [if_neg (by norm_num : ¬ ((0.5:ℚ) > 0.7)),
        if_neg (by rw [max_eq_left (by norm_num : (0:ℚ) ≤ 0.5)]; norm_num), add_zero]
  · rw [if_neg hme]
    rcases hl : (intentPatterns.filterMap fun ip =>
        if wordSearch q ip.2 then some (⟨ip.1, (0.8:ℚ)⟩ : IntentRef) else none) with _ | ⟨i, rest⟩
    · rw [hl] at hme
      simp at hme
    · rw [hl] at hconf
      rw [hl]
      unfold intentHeadBoost
      dsimp only
      rw [hconf i (List.mem_cons_self _ _), if_pos (by norm_num : (0.8:ℚ) > 0.7)]
      rw [highestConfidence_eq _ hconf (by simp), if_pos (by norm_num : (0.8:ℚ) > 0.7)]

/-- Claim C6: for every semantic analysis the pipeline produces, the
synthesized confidence equals base 0.5, plus 0.3 when `focus.primary` is
non-null, plus 0.2 when the highest-confidence intent entry exceeds 0.7,
minus 0.1 when `sentiment.uncertainty` exceeds 0.6, clamped to the unit
interval.  (The source tests `intent[0].confidence`, which coincides with
the highest confidence on every intent list `_classify_intent` returns.) -/
theorem confidence_formula (q : List Char) (e : Entities) :
    calcSearchConfidence (performSemanticAnalysis q e)
      = specConfidenceFormula (performSemanticAnalysis q e) := by
  have hint : (performSemanticAnalysis q e).intent = classifyIntent q := rfl
  unfold calcSearchConfidence specConfidenceFormula
  dsimp only
  rw [hint, intent_step]
  split_ifs <;> ring_nf

theorem filterMap_ite {α β : Type} (l : List α) (p : α → Bool) (f : α → β) :
    l.filterMap (fun x => if p x then some (f x) else none) = (l.filter p).map f := by
  induction l with
  | nil => rfl
  | cons x xs ih =>
    rw [List.filterMap_cons, List.filter_cons]
    cases hp : p x <;> simp [hp, ih]

/-- Counterexample for C5: the claim's description differs from the code on
two points.  With partial query "Diab", the code's case-insensitive
containment admits history entries the claim's raw substring test rejects;
with partial query "zzz" and two matching history entries, the code emits
them oldest first while the claim demands most-recent-first. -/
theorem suggestions_claim_counterexample :
    getSearchSuggestions "Diab".toList
        [⟨"diabetes alpha".toList, 0, [], true⟩, ⟨"Diab beta".toList, 1, [], true⟩]
      ≠ claimSuggestions "Diab".toList
        [⟨"diabetes alpha".toList, 0, [], true⟩, ⟨"Diab beta".toList, 1, [], true⟩] ∧
    getSearchSuggestions "zzz".toList
        [⟨"zzz one".toList, 0, [], true⟩, ⟨"zzz two".toList, 1, [], true⟩]
      ≠ claimSuggestions "zzz".toList
        [⟨"zzz one".toList, 0, [], true⟩, ⟨"zzz two".toList, 1, [], true⟩] := by
  refine ⟨ne_of_apply_ne List.length ?_, ne_of_apply_ne (fun l => l.head?.map Suggestion.text) ?_⟩
  · show (3 : Nat) ≠ 2
    decide
  · show some "zzz one".toList ≠ some "zzz two".toList
    decide

/-- Claim C5 as amended: lexicon matches (phrase starts with the lower-cased
partial query, confidence 0.9) in lexicon iteration order, then history
matches (lower-cased query contains the lower-cased partial query,
confidence 0.6) in stored oldest-first history order, truncated to at most
8 entries after concatenation. -/
theorem suggestions_order_cap (pq : List Char) (history : List HEntry) :
    getSearchSuggestions pq history = amendedSuggestions pq history ∧
    (getSearchSuggestions pq history).length ≤ 8 := by
  constructor
  · unfold getSearchSuggestions amendedSuggestions
    dsimp only
    rw [filterMap_ite meshTerms (fun tm => (lowerStr pq).isPrefixOf tm.1)
          (fun tm => (⟨tm.1, "mesh".toList, "Search for: ".toList ++ tm.2, 0.9⟩ : Suggestion)),
        filterMap_ite history (fun e => inStr (lowerStr pq) (lowerStr e.query))
          (fun e => (⟨e.query, "history".toList, "From your search history".toList, 0.6⟩ :
            Suggestion))]
  · unfold getSearchSuggestions
    dsimp only
    exact List.length_take_le 8 _

/-- Claim C4, evaluated on the failing input: for the query
"diabetes treatment in elderly patients" the pipeline does produce the
`Diabetes Mellitus` mesh entity, the `age`/`["elderly"]` demographic entity,
and confidence 0.8 ≥ 0.5 — but the intent list is exactly
`[general (0.5)]`: it contains no `treatment` entry, because the pattern
`\b(treat|therapy|...)\b` demands a word boundary right after `treat`,
which the word `treatment` does not have.  The truncated stems in the same
table (`diagnos`, `prophylax`, `immuniz`, `epidemiol`), which can never
match a whole word, show prefix matching was intended, so the trailing
`\b` is a slip in the code and the claim reflects the intent. -/
theorem diabetes_elderly_pipeline :
    ((extractMedicalEntities (normalizeQuery "diabetes treatment in elderly patients".toList)).mesh_terms.map
        MeshRef.mesh = ["Diabetes Mellitus".toList]) ∧
    ((extractMedicalEntities (normalizeQuery "diabetes treatment in elderly patients".toList)).demographics.map
        (fun d => (d.demoType, d.values)) = [("age".toList, ["elderly".toList])]) ∧
    ((classifyIntent (normalizeQuery "diabetes treatment in elderly patients".toList)).map
        IntentRef.intentType = ["general".toList]) ∧
    (processQuery "diabetes treatment in elderly patients".toList [] ⟨2026, 20000, 1⟩
        ⟨[], ⟨0, 0, none⟩⟩).1.confidence = 0.8 := by
  refine ⟨by decide, by decide, by decide, ?_⟩
  have h2 : (performSemanticAnalysis (normalizeQuery "diabetes treatment in elderly patients".toList)
      (extractMedicalEntities (normalizeQuery "diabetes treatment in elderly patients".toList))).intent
      = [⟨"general".toList, 0.5⟩] := rfl
  have h1 : (performSemanticAnalysis (normalizeQuery "diabetes treatment in elderly patients".toList)
      (extractMedicalEntities (normalizeQuery "diabetes treatment in elderly patients".toList))).focus.primary
      = some "Diabetes Mellitus".toList := rfl
  have h3 : (performSemanticAnalysis (normalizeQuery "diabetes treatment in elderly patients".toList)
      (extractMedicalEntities (normalizeQuery "diabetes treatment in elderly patients".toList))).sentiment.uncertainty
      = 0.3 := rfl
  show calcSearchConfidence (performSemanticAnalysis _ _) = 0.8
  unfold calcSearchConfidence intentHeadBoost
  dsimp only
  rw [h1, h2, h3]
  dsimp only
  rw [if_neg (by norm_num : ¬ ((0.5:ℚ) > 0.7)), if_neg (by norm_num : ¬ ((0.3:ℚ) > 0.6))]
  simp only [Option.isSome_some, if_pos]
  norm_num [min_def, max_def]

/-- Claim C1: `process_query` never raises, and whenever one of the guarded
stages (entity extraction, semantic analysis, parameter synthesis) raises
internally, it returns exactly the fallback parameters: the raw input
wrapped as a quoted Title/Abstract clause, empty filters, relevance sort,
confidence 0.3, and the one-element fallback explanation.  (The model of
`process_query` is a total function, which is the never-raises guarantee.) -/
theorem processQuery_fallback_exact (ph : Phases) (q : List Char) (ctx : Ctx)
    (now : Now) (st : PState) (h : pipelineFails ph q ctx now) :
    (processQueryWith ph q ctx now st).1 =
      { query := quoteTag q "[Title/Abstract]".toList
        filters := []
        sort := "relevance".toList
        advanced := none
        confidence := 0.3
        explanation := ["Using basic keyword search as fallback".toList] } := by
  unfold processQueryWith
  split
  · rfl
  · next ents hx =>
    split
    · rfl
    · next sem ha =>
      split
      · rfl
      · next ps hg =>
        exfalso
        unfold pipelineFails at h
        simp only [hx, ha, hg] at h

/-- Witness for C1: a concrete run whose extraction stage errors returns
exactly the fallback parameters. -/
theorem processQuery_fallback_exact_witness :
    pipelineFails failingPhases "covid".toList [] ⟨2026, 20000, 1⟩ ∧
    (processQueryWith failingPhases "covid".toList [] ⟨2026, 20000, 1⟩ ⟨[], ⟨0, 0, none⟩⟩).1 =
      { query := quoteTag "covid".toList "[Title/Abstract]".toList
        filters := []
        sort := "relevance".toList
        advanced := none
        confidence := 0.3
        explanation := ["Using basic keyword search as fallback".toList] } := by
  refine ⟨?_, processQuery_fallback_exact failingPhases "covid".toList [] ⟨2026, 20000, 1⟩
    ⟨[], ⟨0, 0, none⟩⟩ ?_⟩ <;> exact trivial

/-- Claim C7: with the same query and the same injected clock, the produced
search parameters are identical no matter what the user context or the
stored history and preferences are, and so is the document ordering they
induce: the pipeline reads nothing beyond its static tables, its inputs and
the injected clock. -/
theorem processQuery_deterministic (q : List Char) (ctx ctx' : Ctx) (now : Now)
    (st st' : PState) (papers : List Paper) :
    (processQuery q ctx now st).1 = (processQuery q ctx' now st').1 ∧
    applyMlRanking papers (processQuery q ctx now st).1 q now
      = applyMlRanking papers (processQuery q ctx' now st').1 q now := by
  have h : (processQuery q ctx now st).1 = (processQuery q ctx' now st').1 := rfl
  exact ⟨h, by rw [h]⟩

/-- Claim C8: each append performed by `_update_user_model` immediately
truncates the history to its most recent 100 entries: the new history is
exactly the last 100 elements of the old history extended by the new
interaction, hence never exceeds 100 entries. -/
theorem history_bounded_after_update (q : List Char) (ctx : Ctx) (now : Now) (st : PState) :
    ((updateUserModel q ctx now st).query_history).length ≤ 100 ∧
    (updateUserModel q ctx now st).query_history
      = lastN 100 (st.query_history ++ [⟨q, now.stamp, ctx, true⟩]) := by
  have key : ∀ (l : List HEntry), (if l.length > 100 then lastN 100 l else l) = lastN 100 l := by
    intro l
    by_cases h : l.length > 100
    · rw [if_pos h]
    · rw [if_neg h]
      unfold lastN
      rw [show l.length - 100 = 0 by omega, List.drop_zero]
  have hlen : ∀ (l : List HEntry), (lastN 100 l).length ≤ 100 := by
    intro l
    unfold lastN
    simp only [List.length_drop]
    omega
  have hq : (updateUserModel q ctx now st).query_history
      = (if (st.query_history ++ [(⟨q, now.stamp, ctx, true⟩ : HEntry)]).length > 100
         then lastN 100 (st.query_history ++ [⟨q, now.stamp, ctx, true⟩])
         else st.query_history ++ [⟨q, now.stamp, ctx, true⟩]) := rfl
  rw [hq, key _]
  exact ⟨hlen _, rfl⟩

end Veridian
